import Mathlib

/-!
Shallow embedding of the mirrord agent's TCP mirroring engine:
`TcpMirrorApi` (agent/src/mirror.rs, `Passthrough` variant) and
`IpTablesRedirector` (agent/src/incoming/iptables.rs), together with the
wire-protocol message shapes they produce.  Types that live outside the
embedded sources (the `mirrord_protocol` crate, the `incoming` stream
machinery, the `SafeIpTables` rule engine) are modelled from the
specification, with doc comments saying so.
-/

namespace Mirror

/-- An IP address, v4 or v6, with an opaque numeric payload. -/
inductive IpAddr where
| v4 (a : Nat)
| v6 (a : Nat)
deriving DecidableEq

def IpAddr.is_ipv6 : IpAddr → Bool
| .v4 _ => false
| .v6 _ => true

/-- A socket address: IP address plus port. -/
structure SocketAddr where
  ip : IpAddr
  port : Nat
deriving DecidableEq

def SocketAddr.is_ipv6 (a : SocketAddr) : Bool :=
  a.ip.is_ipv6

/-- Modelled from the spec: the TLS context attached to a captured
connection (`tls_connector` in the `incoming` module, not under `src/`):
optional ALPN protocol (bytes) and SNI server name, observed during the
handshake and immutable afterward. -/
structure TlsConnector where
  alpn_protocol : Option (List Nat)
  server_name : Option String
deriving DecidableEq

/-- Modelled from the spec: transport tag of the unified connection
announcement (`mirrord_protocol`): plain TCP, or TLS with optional ALPN
protocol and server name. -/
inductive IncomingTrafficTransportType where
| Tcp
| Tls (alpn_protocol : Option (List Nat)) (server_name : Option String)
deriving DecidableEq

/-- Connection metadata carried by mirrored traffic (`info` field):
peer address, original (pre-redirection) destination, local address and
optional TLS context. -/
structure ConnInfo where
  peer_addr : SocketAddr
  original_destination : SocketAddr
  local_addr : SocketAddr
  tls_connector : Option TlsConnector
deriving DecidableEq

/-- An HTTP body frame, kept opaque (bytes). -/
abbrev Frame := List Nat

instance {ε α : Type} [DecidableEq ε] [DecidableEq α] : DecidableEq (Except ε α)
| .ok a, .ok b =>
  if h : a = b then isTrue (by rw [h]) else isFalse (by simp [h])
| .ok _, .error _ => isFalse (by simp)
| .error _, .ok _ => isFalse (by simp)
| .error a, .error b =>
  if h : a = b then isTrue (by rw [h]) else isFalse (by simp [h])

/-- Modelled from the spec: one event of an `IncomingStream` (the
`incoming` module is not under `src/`; the variant names are fixed by
their uses in `mirror.rs`): data bytes, end of data, an HTTP body frame,
end of frames, or stream termination with a transport result. -/
inductive IncomingStreamItem where
| Data (data : List Nat)
| NoMoreData
| Frame (frame : Frame)
| NoMoreFrames
| Finished (result : Except String Unit)
deriving DecidableEq

/-- Modelled from the spec: an `IncomingStream` is the (lazy) sequence of
events of one captured connection, consumed in production order. -/
abbrev IncomingStream := List IncomingStreamItem

/-- A captured TCP connection handed over by the redirection backend:
metadata plus its event stream. -/
structure MirroredTcp where
  info : ConnInfo
  stream : IncomingStream
deriving DecidableEq

/-- The parsed head of a classified HTTP request. -/
structure RequestHead where
  method : String
  uri : String
  headers : List (String × String)
  version : Nat
  body_head : List Frame
  body_finished : Bool
deriving DecidableEq

/-- A captured HTTP request handed over by the redirection backend. -/
structure MirroredHttp where
  info : ConnInfo
  request_head : RequestHead
  stream : IncomingStream
deriving DecidableEq

/-- Modelled from the spec: traffic yielded by the mirror handle, either
an opaque TCP connection or a classified HTTP request. -/
inductive MirroredTraffic where
| Tcp (tcp : MirroredTcp)
| Http (http : MirroredHttp)
deriving DecidableEq

/-- Modelled from the spec: a semantic protocol version negotiated once
per client session. -/
structure SemVer where
  major : Nat
  minor : Nat
  patch : Nat
deriving DecidableEq

/-- Lexicographic strict order on semantic versions. -/
def SemVer.lt (a b : SemVer) : Bool :=
  a.major < b.major ||
    (a.major = b.major &&
      (a.minor < b.minor || (a.minor = b.minor && a.patch < b.patch)))

/-- Modelled from the spec: the feature-gating constant
`MODE_AGNOSTIC_HTTP_REQUESTS` of `mirrord_protocol` (not under `src/`), a
minimum version requirement below which unified connection announcements,
chunked HTTP mirroring and composite HTTP filters are unavailable.  The
concrete threshold value is irrelevant to the claims. -/
def MODE_AGNOSTIC_HTTP_REQUESTS : SemVer := ⟨1, 19, 0⟩

/-- The client's negotiated protocol version, read-only after negotiation. -/
abbrev ClientProtocolVersion := SemVer

/-- Modelled from the spec: `ClientProtocolVersion::matches` on a minimum
version requirement holds exactly when the negotiated version is not below
the requirement. -/
def ClientProtocolVersion.matches (v : ClientProtocolVersion) (req : SemVer) : Bool :=
  !(SemVer.lt v req)

/-- Connection ids are u64 values. -/
abbrev ConnectionId := Nat

/-- `u64::MAX`, the upper bound of the connection-id space. -/
def CONNECTION_ID_MAX : Nat := 2 ^ 64 - 1

abbrev RequestId := Nat

/-- Legacy new-connection announcement
(`mirrord_protocol::tcp::NewTcpConnectionV1`). -/
structure NewTcpConnectionV1 where
  connection_id : ConnectionId
  remote_address : IpAddr
  destination_port : Nat
  source_port : Nat
  local_address : IpAddr
deriving DecidableEq

/-- Unified new-connection announcement: the legacy fields plus a
transport tag (`mirrord_protocol::tcp::NewTcpConnectionV2`). -/
structure NewTcpConnectionV2 where
  connection : NewTcpConnectionV1
  transport : IncomingTrafficTransportType
deriving DecidableEq

/-- Data message (`mirrord_protocol::tcp::TcpData`). -/
structure TcpData where
  connection_id : ConnectionId
  bytes : List Nat
deriving DecidableEq

/-- Close message (`mirrord_protocol::tcp::TcpClose`). -/
structure TcpClose where
  connection_id : ConnectionId
deriving DecidableEq

/-- Chunked HTTP request body message
(`mirrord_protocol::tcp::ChunkedRequestBodyV1`). -/
structure ChunkedRequestBodyV1 where
  frames : List Frame
  is_last : Bool
  connection_id : ConnectionId
  request_id : RequestId
deriving DecidableEq

/-- New-style HTTP body carried in a chunked request start. -/
structure InternalHttpBodyNew where
  frames : List Frame
  is_last : Bool
deriving DecidableEq

/-- HTTP request head carried in a chunked request start. -/
structure InternalHttpRequest where
  method : String
  uri : String
  headers : List (String × String)
  version : Nat
  body : InternalHttpBodyNew
deriving DecidableEq

/-- Source/destination metadata of a mirrored HTTP request. -/
inductive HttpRequestMetadata where
| V1 (source : SocketAddr) (destination : SocketAddr)
deriving DecidableEq

/-- Chunked HTTP request start message
(`mirrord_protocol::tcp::ChunkedRequestStartV2`). -/
structure ChunkedRequestStartV2 where
  connection_id : ConnectionId
  request_id : RequestId
  metadata : HttpRequestMetadata
  transport : IncomingTrafficTransportType
  request : InternalHttpRequest
deriving DecidableEq

/-- Chunked HTTP request message (`mirrord_protocol::tcp::ChunkedRequest`). -/
inductive ChunkedRequest where
| StartV2 (start : ChunkedRequestStartV2)
| Body (body : ChunkedRequestBodyV1)
deriving DecidableEq

/-- TCP-feature daemon message (`mirrord_protocol::tcp::DaemonTcp`),
restricted to the variants produced by the mirror API. -/
inductive DaemonTcp where
| NewConnectionV1 (c : NewTcpConnectionV1)
| NewConnectionV2 (c : NewTcpConnectionV2)
| Data (d : TcpData)
| HttpRequestChunked (c : ChunkedRequest)
| Close (c : TcpClose)
| SubscribeResult (r : Except String Nat)
deriving DecidableEq

/-- Modelled from the spec: severity level of a log message. -/
inductive LogLevel where
| Warn
| Error
deriving DecidableEq

/-- Modelled from the spec: a leveled, human-readable diagnostic sent to
the client (`mirrord_protocol::LogMessage`). -/
structure LogMessage where
  level : LogLevel
  message : String
deriving DecidableEq

/-- `LogMessage::warn`. -/
def LogMessage.warn (s : String) : LogMessage := ⟨.Warn, s⟩

/-- `LogMessage::error`. -/
def LogMessage.error (s : String) : LogMessage := ⟨.Error, s⟩

/-- Daemon-to-client message (`mirrord_protocol::DaemonMessage`),
restricted to the variants produced by the mirror API. -/
inductive DaemonMessage where
| Tcp (m : DaemonTcp)
| LogMessage (m : LogMessage)
deriving DecidableEq

/-- Agent errors surfaced by the mirror API (`AgentError`). -/
inductive AgentError where
| ExhaustedConnectionId
| Other (s : String)
deriving DecidableEq

/-- Client-to-agent message for the TCP mirror feature
(`mirrord_protocol::tcp::LayerTcp`). -/
inductive LayerTcp where
| ConnectionUnsubscribe (id : ConnectionId)
| PortSubscribe (port : Nat)
| PortUnsubscribe (port : Nat)
deriving DecidableEq

/-- State of the `TcpMirrorApi::Passthrough` variant: the stream map of
captured connections, the client's negotiated protocol version, the front
of the `0..=ConnectionId::MAX` id iterator, and the queue of already
decided outbound messages. -/
structure PassthroughState where
  incoming_streams : List (ConnectionId × IncomingStream)
  protocol_version : ClientProtocolVersion
  next_connection_id : Nat
  queued_messages : List DaemonTcp
deriving DecidableEq

/-- `Iterator::next` on the `0..=ConnectionId::MAX` range: yields the
front and advances, or nothing once the bounded space is exhausted. -/
def connectionIdsNext (n : Nat) : Option (ConnectionId × Nat) :=
  if n ≤ CONNECTION_ID_MAX then some (n, n + 1) else none

/-- Lookup in the stream map (`StreamMap` keyed by connection id). -/
def streamsFind (id : ConnectionId) (m : List (ConnectionId × IncomingStream)) :
    Option IncomingStream :=
  (m.find? fun p => p.1 = id).map fun p => p.2

/-- `StreamMap::remove`. -/
def streamsRemove (id : ConnectionId) (m : List (ConnectionId × IncomingStream)) :
    List (ConnectionId × IncomingStream) :=
  m.filter fun p => p.1 ≠ id

/-- `StreamMap::insert`: binds `id` to `s`, replacing any previous entry. -/
def streamsInsert (id : ConnectionId) (s : IncomingStream)
    (m : List (ConnectionId × IncomingStream)) :
    List (ConnectionId × IncomingStream) :=
  (id, s) :: streamsRemove id m

/-- `TcpMirrorApi::REQUEST_ID`: the constant request id used for all
mirrored HTTP requests. -/
def REQUEST_ID : RequestId := 0

/-- `TcpMirrorApi::passthrough`: the initial session state. -/
def passthrough (protocol_version : ClientProtocolVersion) : PassthroughState :=
  { incoming_streams := []
    protocol_version := protocol_version
    next_connection_id := 0
    queued_messages := [] }

/-- The warning produced when a mirrored connection fails mid-stream
(`mirror.rs`, the `Finished(Err(error))` arm). -/
def mirrorFailedLog (id : ConnectionId) (e : String) : String :=
  "Mirrored connection " ++ toString id ++ " failed: " ++ e

/-- The log produced when a TLS connection cannot be mirrored under the
client's negotiated version. -/
def tlsNotMirroredLog : String :=
  "A TLS connection was not mirrored due to mirrord-protocol version requirement"

/-- The log produced when an HTTP request cannot be mirrored under the
client's negotiated version. -/
def httpNotMirroredLog : String :=
  "An HTTP request was not mirrored due to mirrord-protocol version requirement"

/-- The match on one stream item inside `TcpMirrorApi::recv`
(`incoming_streams.next()` branch of the `tokio::select!`): the message
returned to the caller, paired with the messages pushed onto the back of
`queued_messages` (only the `Finished(Err)` arm pushes a synthesized
close). -/
def handleItem (id : ConnectionId) (item : IncomingStreamItem) :
    DaemonMessage × List DaemonTcp :=
  match item with
  | .Data data => (.Tcp (.Data ⟨id, data⟩), [])
  | .NoMoreData => (.Tcp (.Data ⟨id, []⟩), [])
  | .Frame frame =>
      (.Tcp (.HttpRequestChunked (.Body ⟨[frame], false, id, REQUEST_ID⟩)), [])
  | .NoMoreFrames =>
      (.Tcp (.HttpRequestChunked (.Body ⟨[], true, id, REQUEST_ID⟩)), [])
  | .Finished (.ok ()) => (.Tcp (.Close ⟨id⟩), [])
  | .Finished (.error e) =>
      (.LogMessage (LogMessage.warn (mirrorFailedLog id e)), [.Close ⟨id⟩])

/-- `transport` field computed from an optional TLS context, as in both
the `NewTcpConnectionV2` and `ChunkedRequestStartV2` constructions. -/
def transportOfTls : Option TlsConnector → IncomingTrafficTransportType
  | some tls => .Tls tls.alpn_protocol tls.server_name
  | none => .Tcp

/-- Legacy announcement built from captured TCP connection info, exactly
as the `NewTcpConnectionV1` literal in `recv`. -/
def newConnectionV1 (id : ConnectionId) (info : ConnInfo) : NewTcpConnectionV1 :=
  { connection_id := id
    remote_address := info.peer_addr.ip
    destination_port := info.original_destination.port
    source_port := info.peer_addr.port
    local_address := info.local_addr.ip }

/-- Chunked request start built from a captured HTTP request, exactly as
the `ChunkedRequestStartV2` literal in `recv`. -/
def chunkedStartV2 (id : ConnectionId) (http : MirroredHttp) : ChunkedRequestStartV2 :=
  { connection_id := id
    request_id := REQUEST_ID
    metadata := .V1 http.info.peer_addr http.info.original_destination
    transport := transportOfTls http.info.tls_connector
    request :=
      { method := http.request_head.method
        uri := http.request_head.uri
        headers := http.request_head.headers
        version := http.request_head.version
        body :=
          { frames := http.request_head.body_head
            is_last := http.request_head.body_finished } } }

/-- One resolved outcome of the `tokio::select!` inside
`TcpMirrorApi::recv`: either the stream map yields the next item of the
stream keyed by `id`, or the mirror handle yields new traffic (or a
handle error, propagated by the `?` on `traffic?`). -/
inductive SelectOutcome where
| streamItem (id : ConnectionId)
| newTraffic (traffic : Except String MirroredTraffic)
deriving DecidableEq

/-- The body of the `tokio::select!` in `TcpMirrorApi::recv`
(`Passthrough` arm), reached when `queued_messages` is empty.  Returns
`none` for a select branch that is not ready (an absent or exhausted
stream), mirroring the pending future. -/
def recvSelect (s : PassthroughState) (sel : SelectOutcome) :
    Except AgentError (Option DaemonMessage × PassthroughState) :=
  match sel with
  | .streamItem id =>
    match streamsFind id s.incoming_streams with
    | none => .ok (none, s)
    | some [] => .ok (none, s)
    | some (item :: rest) =>
      let (msg, pushed) := handleItem id item
      .ok (some msg,
        { s with
            incoming_streams := streamsInsert id rest s.incoming_streams
            queued_messages := s.queued_messages ++ pushed })
  | .newTraffic (.error e) => .error (.Other e)
  | .newTraffic (.ok traffic) =>
    match traffic with
    | .Tcp tcp =>
      if s.protocol_version.matches MODE_AGNOSTIC_HTTP_REQUESTS then
        match connectionIdsNext s.next_connection_id with
        | none => .error .ExhaustedConnectionId
        | some (id, next) =>
          .ok (some (.Tcp (.NewConnectionV2
                ⟨newConnectionV1 id tcp.info, transportOfTls tcp.info.tls_connector⟩)),
            { s with
                next_connection_id := next
                incoming_streams := streamsInsert id tcp.stream s.incoming_streams })
      else if tcp.info.tls_connector.isSome then
        .ok (some (.LogMessage (LogMessage.error tlsNotMirroredLog)), s)
      else
        match connectionIdsNext s.next_connection_id with
        | none => .error .ExhaustedConnectionId
        | some (id, next) =>
          .ok (some (.Tcp (.NewConnectionV1 (newConnectionV1 id tcp.info))),
            { s with
                next_connection_id := next
                incoming_streams := streamsInsert id tcp.stream s.incoming_streams })
    | .Http http =>
      if s.protocol_version.matches MODE_AGNOSTIC_HTTP_REQUESTS then
        match connectionIdsNext s.next_connection_id with
        | none => .error .ExhaustedConnectionId
        | some (id, next) =>
          .ok (some (.Tcp (.HttpRequestChunked (.StartV2 (chunkedStartV2 id http)))),
            { s with
                next_connection_id := next
                incoming_streams := streamsInsert id http.stream s.incoming_streams })
      else
        .ok (some (.LogMessage (LogMessage.error httpNotMirroredLog)), s)

/-- `TcpMirrorApi::recv` (`Passthrough` arm): if the outbound queue is
non-empty its head is returned at once (the select is never reached);
otherwise the select outcome is processed. -/
def recv (s : PassthroughState) (sel : SelectOutcome) :
    Except AgentError (Option DaemonMessage × PassthroughState) :=
  match s.queued_messages with
  | m :: rest => .ok (some (.Tcp m), { s with queued_messages := rest })
  | [] => recvSelect s sel

/-- `TcpMirrorApi::handle_client_message` (`Passthrough` arm), success
path of `mirror_handle.mirror`. -/
def handle_client_message (s : PassthroughState) (message : LayerTcp) :
    PassthroughState :=
  match message with
  | .ConnectionUnsubscribe id =>
      { s with incoming_streams := streamsRemove id s.incoming_streams }
  | .PortSubscribe port =>
      { s with queued_messages := s.queued_messages ++ [.SubscribeResult (.ok port)] }
  | .PortUnsubscribe _ => s

/-- One step of the agent's session loop: a client message handed to
`handle_client_message`, or a resolved select outcome for `recv`. -/
inductive SessionInput where
| client (m : LayerTcp)
| select (sel : SelectOutcome)
deriving DecidableEq

/-- The session trace: repeated calls of `recv`, interleaved with
`handle_client_message`.  A `recv` that serves the outbound queue does
not consume the pending select outcome; an agent error ends the session.
Ready select branches are consumed even when not producing a message. -/
def run (s : PassthroughState) (inputs : List SessionInput) :
    List (Except AgentError DaemonMessage) :=
  match inputs with
  | [] => []
  | .client m :: rest => run (handle_client_message s m) rest
  | .select sel :: rest =>
    match hq : s.queued_messages with
    | m :: q =>
        .ok (.Tcp m) :: run { s with queued_messages := q } (.select sel :: rest)
    | [] =>
      match recvSelect s sel with
      | .error e => [.error e]
      | .ok (none, s') => run s' rest
      | .ok (some msg, s') => .ok msg :: run s' rest
termination_by (inputs.length, s.queued_messages.length)
decreasing_by
  all_goals simp_all [Prod.lex_iff]

/-- Modelled from the spec: the `SafeIpTables` rule engine (the
`mirrord_agent_iptables` crate is not under `src/`).  Only the behaviour
visible to `IpTablesRedirector` is modelled: whether an exclusion guard
is present (`exclusion()`), and the outcomes of `remove_exclusion` and of
`cleanup` (rule removal), each of which may fail. -/
structure SafeIpTables where
  has_exclusion : Bool
  remove_exclusion_result : Except String Unit
  cleanup_result : Except String Unit
deriving DecidableEq

/-- State of `IpTablesRedirector` (`incoming/iptables.rs`): the lazily
created rule-table context plus the construction-time configuration. -/
structure IpTablesRedirector where
  iptables : Option SafeIpTables
  redirect_to : Nat
  pod_ips : Option String
  flush_connections : Bool
  ipv6 : Bool
  with_mesh_exclusion : Option Nat
deriving DecidableEq

/-- `IpTablesRedirector::cleanup`: takes the rule-table context if
present; a failing `remove_exclusion` is only logged, then
`iptables.cleanup()` runs with its error propagated by `?`.  Returns the
call result, the post state, and the errors that were logged only. -/
def IpTablesRedirector.cleanup (s : IpTablesRedirector) :
    Except String Unit × IpTablesRedirector × List String :=
  match s.iptables with
  | none => (.ok (), s, [])
  | some t =>
    let s' := { s with iptables := none }
    let logs :=
      if t.has_exclusion && s.with_mesh_exclusion.isSome then
        match t.remove_exclusion_result with
        | .ok () => []
        | .error e => ["Failed to add exclusion to redirector: " ++ e]
      else []
    match t.cleanup_result with
    | .ok () => (.ok (), s', logs)
    | .error e => (.error e, s', logs)

/-- An accepted socket on the redirect listener, with the kernel state
read by the two original-destination socket options (`OriginalDst` for
IPv4, `Ip6tOriginalDst` for IPv6); each `getsockopt` call may fail. -/
structure AcceptedConn where
  stream : Nat
  source : SocketAddr
  original_dst_v4 : Except String SocketAddr
  original_dst_v6 : Except String SocketAddr
deriving DecidableEq

/-- A redirected connection as returned by `next_connection`
(`incoming::Redirected`). -/
structure Redirected where
  stream : Nat
  source : SocketAddr
  destination : SocketAddr
deriving DecidableEq

/-- Destination resolution inside `next_connection`: the IPv6 socket
option form when the source address is IPv6, the IPv4 form otherwise. -/
def resolveOriginalDst (c : AcceptedConn) : Except String SocketAddr :=
  if c.source.is_ipv6 then c.original_dst_v6 else c.original_dst_v4

/-- `IpTablesRedirector::next_connection` over the listener's pending
accept queue: loops accepting; a connection whose original destination
resolves is returned, one whose resolution fails is dropped (logged as an
anomaly) and the loop continues.  `ok none` models blocking forever on an
exhausted queue; the error case of the result type is never produced by
resolution failures. -/
def next_connection (accepts : List AcceptedConn) :
    Except String (Option Redirected) :=
  match accepts with
  | [] => .ok none
  | c :: rest =>
    match resolveOriginalDst c with
    | .ok destination => .ok (some ⟨c.stream, c.source, destination⟩)
    | .error _ => next_connection rest

/-- Spec-side characterisation for the refinement claim about
`next_connection`: the first accepted connection whose original
destination resolves, as a `Redirected`. -/
def specFirstResolved (accepts : List AcceptedConn) : Option Redirected :=
  (accepts.find? fun c => (resolveOriginalDst c).isOk).map fun c =>
    ⟨c.stream, c.source,
      match resolveOriginalDst c with
      | .ok d => d
      | .error _ => c.source⟩

/-- The connection id carried by a TCP-feature message, if any. -/
def DaemonTcp.connectionId : DaemonTcp → Option ConnectionId
  | .NewConnectionV1 c => some c.connection_id
  | .NewConnectionV2 c => some c.connection.connection_id
  | .Data d => some d.connection_id
  | .HttpRequestChunked (.StartV2 c) => some c.connection_id
  | .HttpRequestChunked (.Body b) => some b.connection_id
  | .Close c => some c.connection_id
  | .SubscribeResult _ => none

/-- The connection id carried by a daemon message, if any. -/
def DaemonMessage.connectionId : DaemonMessage → Option ConnectionId
  | .Tcp m => m.connectionId
  | .LogMessage _ => none

/-- Whether a message uses one of the version-gated wire shapes: the
unified connection announcement or a chunked-HTTP message. -/
def DaemonMessage.usesGatedShape : DaemonMessage → Bool
  | .Tcp (.NewConnectionV2 _) => true
  | .Tcp (.HttpRequestChunked _) => true
  | _ => false

/-- The connection id freshly allocated by an announcement message
(legacy or unified new-connection, or chunked request start), if any. -/
def allocationId : DaemonMessage → Option ConnectionId
  | .Tcp (.NewConnectionV1 c) => some c.connection_id
  | .Tcp (.NewConnectionV2 c) => some c.connection.connection_id
  | .Tcp (.HttpRequestChunked (.StartV2 c)) => some c.connection_id
  | _ => none

/-- The connection ids allocated along a session trace, in order. -/
def allocatedIds (trace : List (Except AgentError DaemonMessage)) :
    List ConnectionId :=
  trace.filterMap fun r =>
    match r with
    | .ok msg => allocationId msg
    | .error _ => none

/-- An event legal on an opaque-TCP stream: everything except the
HTTP-frame events.  Modelled from the spec: the classifier emits only
data, end-of-data and close events on a stream it classified as opaque
TCP. -/
def tcpItemOk : IncomingStreamItem → Bool
  | .Frame _ => false
  | .NoMoreFrames => false
  | _ => true

/-- A session input wellformed for an old-protocol session: any captured
TCP connection carries an opaque-TCP event stream. -/
def InputWF : SessionInput → Bool
  | .select (.newTraffic (.ok (.Tcp tcp))) => tcp.stream.all tcpItemOk
  | _ => true

/-- Whether a message counts as a chunked body chunk. -/
def isBodyChunk : DaemonMessage → Bool
  | .Tcp (.HttpRequestChunked (.Body _)) => true
  | _ => false

/-- Whether a message carries the terminal body flag of an HTTP request:
a chunked start whose head body is already complete, or a body chunk with
`is_last` set. -/
def terminalFlag : DaemonMessage → Bool
  | .Tcp (.HttpRequestChunked (.StartV2 c)) => c.request.body.is_last
  | .Tcp (.HttpRequestChunked (.Body b)) => b.is_last
  | _ => false

/-- The terminal body flag occurs exactly once in the list, and no body
chunk nor another terminal flag follows it. -/
def terminalOnce : List DaemonMessage → Bool
  | [] => false
  | m :: rest =>
    if terminalFlag m then
      rest.all fun x => !terminalFlag x && !isBodyChunk x
    else
      terminalOnce rest

/-- Modelled from the spec: wellformed event stream of a classified HTTP
request, as produced by the classifier.  If the whole body was already
parsed into the request head, the stream only terminates; otherwise it is
the remaining body frames, the end-of-frames marker, then termination. -/
def HttpStreamWF (http : MirroredHttp) : Prop :=
  (http.request_head.body_finished = true ∧
    ∃ r, http.stream = [.Finished r]) ∨
  (http.request_head.body_finished = false ∧
    ∃ (fs : List Frame) (r : Except String Unit),
      http.stream = fs.map IncomingStreamItem.Frame ++ [.NoMoreFrames, .Finished r])

/-- The messages `recv` derives from the events of one captured stream,
in order (the message component of `handleItem`). -/
def streamMessages (id : ConnectionId) (items : IncomingStream) : List DaemonMessage :=
  items.map fun item => (handleItem id item).1

/-- All messages an HTTP request contributes to the session: the chunked
start built by `recv`, then the messages derived from its stream. -/
def httpRequestMessages (id : ConnectionId) (http : MirroredHttp) : List DaemonMessage :=
  .Tcp (.HttpRequestChunked (.StartV2 (chunkedStartV2 id http))) ::
    streamMessages id http.stream

/-- Invariant of an old-protocol session: the negotiated version is below
the gate, every tracked stream is an opaque-TCP stream, and no queued
message uses a gated shape. -/
def BelowGateInv (s : PassthroughState) : Prop :=
  s.protocol_version.matches MODE_AGNOSTIC_HTTP_REQUESTS = false ∧
  (∀ p ∈ s.incoming_streams, p.2.all tcpItemOk = true) ∧
  (∀ m ∈ s.queued_messages, DaemonMessage.usesGatedShape (.Tcp m) = false)

/-- No queued message is a fresh-id announcement (true of every reachable
state: only closes and subscribe results are ever queued). -/
def QueueNoAllocs (s : PassthroughState) : Prop :=
  ∀ m ∈ s.queued_messages, allocationId (.Tcp m) = none

/-- A connection id is retired in a state: any stream still keyed by it
is exhausted, no queued message carries it, and the id allocator has
moved past it. -/
def IdRetired (id : ConnectionId) (s : PassthroughState) : Prop :=
  (∀ p ∈ s.incoming_streams, p.1 = id → p.2 = []) ∧
  (∀ m ∈ s.queued_messages, DaemonTcp.connectionId m ≠ some id) ∧
  id < s.next_connection_id

/-- State just after a mirrored connection failed: the synthesized close
for the failed id heads the outbound queue, nothing else in the queue
carries the id, any stream keyed by it is exhausted, and the allocator
has moved past it. -/
def HeadClose (id : ConnectionId) (s : PassthroughState) : Prop :=
  (∃ q, s.queued_messages = .Close ⟨id⟩ :: q ∧
    ∀ m ∈ q, DaemonTcp.connectionId m ≠ some id) ∧
  (∀ p ∈ s.incoming_streams, p.1 = id → p.2 = []) ∧
  id < s.next_connection_id

/-! Theorems. -/

/-- C8: `IpTablesRedirector::next_connection` returns the first accepted
connection whose original (pre-redirection) destination resolves via the
platform socket option (the IPv6 form for IPv6 sources, the IPv4 form
otherwise); an accepted connection whose resolution fails is dropped and
the loop continues, and such a failure is never surfaced as an error to
the caller. -/
theorem next_connection_first_resolved (accepts : List AcceptedConn) :
    next_connection accepts = .ok (specFirstResolved accepts) := by
  induction accepts with
  | nil => rfl
  | cons c rest ih =>
    cases h : resolveOriginalDst c with
    | ok d =>
      simp [next_connection, specFirstResolved, List.find?, h, Except.isOk, Except.toBool]
    | error e =>
      simpa [next_connection, specFirstResolved, List.find?, h, Except.isOk,
        Except.toBool] using ih

/-- C3, counterexample: a redirector whose rule-table context is present
and whose rule-removal step fails propagates that failure to the caller
of `cleanup`, so `cleanup` does not return without error on every
state. -/
theorem cleanup_fails_caller_counterexample :
    (IpTablesRedirector.cleanup
        ⟨some ⟨false, .ok (), .error "iptables deletion failed"⟩,
          0, none, false, false, none⟩).1 =
      .error "iptables deletion failed" := by
  decide

/-- C3, amended: `IpTablesRedirector::cleanup` never fails its caller as
long as the underlying rule-table removal succeeds (or no rule-table
context was ever created); a failing exclusion removal alone is logged
only and never propagated. -/
theorem cleanup_ok_unless_rule_removal_fails (s : IpTablesRedirector)
    (h : ∀ t, s.iptables = some t → t.cleanup_result = .ok ()) :
    (s.cleanup).1 = .ok () := by
  cases hs : s.iptables with
  | none => simp [IpTablesRedirector.cleanup, hs]
  | some t => simp [IpTablesRedirector.cleanup, hs, h t hs]

theorem cleanup_ok_unless_rule_removal_fails_witness :
    (IpTablesRedirector.cleanup
        ⟨some ⟨true, .error "exclusion removal failed", .ok ()⟩,
          0, none, false, false, some 7⟩).1 = .ok () :=
  cleanup_ok_unless_rule_removal_fails
    ⟨some ⟨true, .error "exclusion removal failed", .ok ()⟩, 0, none, false, false, some 7⟩
    (by decide)

/-- C4, counterexample: a TLS connection arriving while the negotiated
version is below the gate makes `recv` return an error-level log message,
not a warning-level one, so the claim's "warning-level" is false. -/
theorem tls_rejection_log_level_counterexample :
    recv (passthrough ⟨1, 0, 0⟩)
        (.newTraffic (.ok (.Tcp ⟨⟨⟨.v4 1, 10⟩, ⟨.v4 2, 80⟩, ⟨.v4 3, 30⟩, some ⟨none, none⟩⟩, []⟩))) =
      .ok (some (.LogMessage ⟨.Error, tlsNotMirroredLog⟩), passthrough ⟨1, 0, 0⟩) ∧
    LogLevel.Error ≠ LogLevel.Warn := by
  exact ⟨by decide, by decide⟩

/-- C4, amended: for every incoming TLS connection received while the
client's negotiated protocol version is below the gate, `recv` emits an
error-level log message (instead of silently dropping the TLS
distinction) and does not mirror that connection's content: the state is
returned unchanged, so the connection's stream is never tracked. -/
theorem tls_rejection_error_log (s : PassthroughState) (tcp : MirroredTcp)
    (hq : s.queued_messages = [])
    (hver : s.protocol_version.matches MODE_AGNOSTIC_HTTP_REQUESTS = false)
    (htls : tcp.info.tls_connector.isSome = true) :
    recv s (.newTraffic (.ok (.Tcp tcp))) =
      .ok (some (.LogMessage (LogMessage.error tlsNotMirroredLog)), s) := by
  simp [recv, hq, recvSelect, hver, htls]

theorem tls_rejection_error_log_witness :
    recv (passthrough ⟨1, 18, 3⟩)
        (.newTraffic (.ok (.Tcp ⟨⟨⟨.v6 1, 10⟩, ⟨.v6 2, 443⟩, ⟨.v6 3, 30⟩, some ⟨some [104], some "x"⟩⟩, []⟩))) =
      .ok (some (.LogMessage (LogMessage.error tlsNotMirroredLog)), passthrough ⟨1, 18, 3⟩) :=
  tls_rejection_error_log (passthrough ⟨1, 18, 3⟩)
    ⟨⟨⟨.v6 1, 10⟩, ⟨.v6 2, 443⟩, ⟨.v6 3, 30⟩, some ⟨some [104], some "x"⟩⟩, []⟩
    (by decide) (by decide) (by decide)

/-- C6: when the bounded connection-id counter is exhausted, the next new
captured connection or HTTP request (any traffic the session would
mirror: any traffic under a gate-matching version, or a plain TCP
connection under an older one) makes `recv` fail with
`ExhaustedConnectionId`, and the session trace ends with exactly that
error rather than crashing or silently dropping the connection. -/
theorem recv_exhausted_connection_id (s : PassthroughState) (t : MirroredTraffic)
    (rest : List SessionInput)
    (hq : s.queued_messages = [])
    (hex : CONNECTION_ID_MAX < s.next_connection_id)
    (hcap : s.protocol_version.matches MODE_AGNOSTIC_HTTP_REQUESTS = true ∨
      ∃ tcp, t = .Tcp tcp ∧ tcp.info.tls_connector = none) :
    recv s (.newTraffic (.ok t)) = .error .ExhaustedConnectionId ∧
    run s (.select (.newTraffic (.ok t)) :: rest) = [.error .ExhaustedConnectionId] := by
  have hnone : connectionIdsNext s.next_connection_id = none := by
    simp only [connectionIdsNext, ite_eq_right_iff]
    omega
  have hsel : recvSelect s (.newTraffic (.ok t)) = .error .ExhaustedConnectionId := by
    rcases hcap with hv | ⟨tcp, rfl, htls⟩
    · cases t <;> simp only [recvSelect, hv, if_true, hnone]
    · cases hm : s.protocol_version.matches MODE_AGNOSTIC_HTTP_REQUESTS <;>
        simp only [recvSelect, hm, htls, Option.isSome_none, Bool.false_eq_true,
          if_true, if_false, hnone]
  constructor
  · unfold recv
    rw [hq]
    exact hsel
  · unfold run
    rw [hq, hsel]

theorem recv_exhausted_connection_id_witness :
    recv ⟨[], ⟨1, 19, 0⟩, 2 ^ 64, []⟩
        (.newTraffic (.ok (.Tcp ⟨⟨⟨.v4 1, 10⟩, ⟨.v4 2, 80⟩, ⟨.v4 3, 30⟩, none⟩, []⟩))) =
      .error .ExhaustedConnectionId ∧
    run ⟨[], ⟨1, 19, 0⟩, 2 ^ 64, []⟩
        [.select (.newTraffic (.ok (.Tcp ⟨⟨⟨.v4 1, 10⟩, ⟨.v4 2, 80⟩, ⟨.v4 3, 30⟩, none⟩, []⟩)))] =
      [.error .ExhaustedConnectionId] :=
  recv_exhausted_connection_id ⟨[], ⟨1, 19, 0⟩, 2 ^ 64, []⟩
    (.Tcp ⟨⟨⟨.v4 1, 10⟩, ⟨.v4 2, 80⟩, ⟨.v4 3, 30⟩, none⟩, []⟩) []
    (by decide) (by decide) (Or.inl (by decide))

/-- C10: when a TLS connection or an HTTP request is rejected because the
negotiated version is below the gate, `recv` returns the log message with
the state unchanged — no connection id is allocated and nothing enters
the connection table — and a subsequently accepted plain connection
receives exactly the id the rejected one would have received. -/
theorem recv_rejection_no_state_change (s : PassthroughState) (t : MirroredTraffic)
    (hq : s.queued_messages = [])
    (hver : s.protocol_version.matches MODE_AGNOSTIC_HTTP_REQUESTS = false)
    (hrej : (∃ tcp, t = .Tcp tcp ∧ tcp.info.tls_connector.isSome = true) ∨
      ∃ http, t = .Http http)
    (hid : s.next_connection_id ≤ CONNECTION_ID_MAX) :
    (∃ log, recv s (.newTraffic (.ok t)) =
      .ok (some (.LogMessage (LogMessage.error log)), s)) ∧
    ∀ tcp : MirroredTcp, tcp.info.tls_connector = none →
      recv s (.newTraffic (.ok (.Tcp tcp))) =
        .ok (some (.Tcp (.NewConnectionV1 (newConnectionV1 s.next_connection_id tcp.info))),
          { s with
              next_connection_id := s.next_connection_id + 1
              incoming_streams :=
                streamsInsert s.next_connection_id tcp.stream s.incoming_streams }) := by
  constructor
  · rcases hrej with ⟨tcp, rfl, htls⟩ | ⟨http, rfl⟩
    · exact ⟨tlsNotMirroredLog, by simp [recv, hq, recvSelect, hver, htls]⟩
    · exact ⟨httpNotMirroredLog, by simp [recv, hq, recvSelect, hver]⟩
  · intro tcp htls
    simp [recv, hq, recvSelect, hver, htls, connectionIdsNext, hid]

theorem recv_rejection_no_state_change_witness :
    recv (passthrough ⟨1, 2, 3⟩)
        (.newTraffic (.ok (.Tcp ⟨⟨⟨.v4 9, 12⟩, ⟨.v4 8, 80⟩, ⟨.v4 7, 30⟩, none⟩, []⟩))) =
      .ok (some (.Tcp (.NewConnectionV1
          (newConnectionV1 0 ⟨⟨.v4 9, 12⟩, ⟨.v4 8, 80⟩, ⟨.v4 7, 30⟩, none⟩))),
        { passthrough ⟨1, 2, 3⟩ with
            next_connection_id := 1
            incoming_streams := streamsInsert 0 [] [] }) :=
  (recv_rejection_no_state_change (passthrough ⟨1, 2, 3⟩)
    (.Http ⟨⟨⟨.v4 1, 10⟩, ⟨.v4 2, 80⟩, ⟨.v4 3, 30⟩, none⟩,
      ⟨"GET", "/", [], 11, [], true⟩, [.Finished (.ok ())]⟩)
    (by decide) (by decide)
    (Or.inr ⟨_, rfl⟩) (by decide)).2
    ⟨⟨⟨.v4 9, 12⟩, ⟨.v4 8, 80⟩, ⟨.v4 7, 30⟩, none⟩, []⟩ rfl

theorem streamsFind_eq_some {id : ConnectionId} {m : List (ConnectionId × IncomingStream)}
    {v : IncomingStream} (h : streamsFind id m = some v) :
    ∃ p, p ∈ m ∧ p.1 = id ∧ p.2 = v := by
  unfold streamsFind at h
  rcases hf : m.find? fun p => p.1 = id with _ | p
  · rw [hf] at h
    exact absurd h (by simp)
  · rw [hf] at h
    refine ⟨p, List.mem_of_find?_eq_some hf, ?_, by simpa using h⟩
    have := List.find?_some hf
    simpa using this

theorem mem_streamsRemove {p : ConnectionId × IncomingStream} {id : ConnectionId}
    {m : List (ConnectionId × IncomingStream)} (h : p ∈ streamsRemove id m) : p ∈ m :=
  List.mem_of_mem_filter h

theorem mem_streamsInsert {p : ConnectionId × IncomingStream} {id : ConnectionId}
    {v : IncomingStream} {m : List (ConnectionId × IncomingStream)}
    (h : p ∈ streamsInsert id v m) : p = (id, v) ∨ (p ∈ m ∧ p.1 ≠ id) := by
  unfold streamsInsert at h
  rcases List.mem_cons.mp h with h | h
  · exact Or.inl h
  · refine Or.inr ⟨mem_streamsRemove h, ?_⟩
    unfold streamsRemove at h
    have := List.of_mem_filter h
    simpa using this

theorem connectionIdsNext_eq_some {n : Nat} {p : ConnectionId × Nat}
    (h : connectionIdsNext n = some p) : p = (n, n + 1) ∧ n ≤ CONNECTION_ID_MAX := by
  unfold connectionIdsNext at h
  split at h
  · exact ⟨by simpa using h.symm, by assumption⟩
  · exact absurd h (by simp)

theorem handleItem_fst_connId (id : ConnectionId) (item : IncomingStreamItem) :
    DaemonMessage.connectionId (handleItem id item).1 = some id ∨
    DaemonMessage.connectionId (handleItem id item).1 = none := by
  rcases item with _ | _ | _ | _ | ⟨_ | _⟩ <;>
    simp [handleItem, DaemonMessage.connectionId, DaemonTcp.connectionId]

theorem handleItem_pushed_connId (id : ConnectionId) (item : IncomingStreamItem) :
    ∀ m ∈ (handleItem id item).2, DaemonTcp.connectionId m = some id := by
  rcases item with _ | _ | _ | _ | ⟨_ | _⟩ <;>
    simp [handleItem, DaemonTcp.connectionId]

theorem handleItem_fst_not_gated (id : ConnectionId) (item : IncomingStreamItem)
    (h : tcpItemOk item = true) :
    DaemonMessage.usesGatedShape (handleItem id item).1 = false := by
  rcases item with _ | _ | _ | _ | ⟨_ | _⟩ <;>
    simp_all [handleItem, DaemonMessage.usesGatedShape, tcpItemOk]

theorem handleItem_fst_no_alloc (id : ConnectionId) (item : IncomingStreamItem) :
    allocationId (handleItem id item).1 = none := by
  rcases item with _ | _ | _ | _ | ⟨_ | _⟩ <;> simp [handleItem, allocationId]

theorem handleItem_pushed_no_alloc (id : ConnectionId) (item : IncomingStreamItem) :
    ∀ m ∈ (handleItem id item).2, allocationId (.Tcp m) = none := by
  rcases item with _ | _ | _ | _ | ⟨_ | _⟩ <;> simp [handleItem, allocationId]

theorem handleItem_pushed_not_gated (id : ConnectionId) (item : IncomingStreamItem) :
    ∀ m ∈ (handleItem id item).2, DaemonMessage.usesGatedShape (.Tcp m) = false := by
  rcases item with _ | _ | _ | _ | ⟨_ | _⟩ <;>
    simp [handleItem, DaemonMessage.usesGatedShape]

/-- Exhaustive characterisation of a successful `recvSelect` step: a
not-ready branch, a stream-item step, a version-rejection log, or a
fresh-id allocation. -/
theorem recvSelect_cases (s : PassthroughState) (sel : SelectOutcome)
    (r : Option DaemonMessage) (s' : PassthroughState)
    (h : recvSelect s sel = .ok (r, s')) :
    (r = none ∧ s' = s) ∨
    (∃ id item rest, sel = .streamItem id ∧
      streamsFind id s.incoming_streams = some (item :: rest) ∧
      r = some (handleItem id item).1 ∧
      s' = { s with
        incoming_streams := streamsInsert id rest s.incoming_streams
        queued_messages := s.queued_messages ++ (handleItem id item).2 }) ∨
    (∃ log, r = some (.LogMessage (LogMessage.error log)) ∧ s' = s) ∨
    (∃ msg stream, r = some msg ∧
      allocationId msg = some s.next_connection_id ∧
      DaemonMessage.connectionId msg = some s.next_connection_id ∧
      s' = { s with
        next_connection_id := s.next_connection_id + 1
        incoming_streams :=
          streamsInsert s.next_connection_id stream s.incoming_streams } ∧
      (s.protocol_version.matches MODE_AGNOSTIC_HTTP_REQUESTS = false →
        ∃ tcp, sel = .newTraffic (.ok (.Tcp tcp)) ∧ stream = tcp.stream ∧
          msg = .Tcp (.NewConnectionV1 (newConnectionV1 s.next_connection_id tcp.info)))) := by
  cases sel with
  | streamItem id =>
    rcases hs : streamsFind id s.incoming_streams with _ | ⟨_ | ⟨item, rest⟩⟩ <;>
      simp only [recvSelect, hs, Except.ok.injEq, Prod.mk.injEq] at h
    · exact Or.inl ⟨h.1.symm, h.2.symm⟩
    · exact Or.inl ⟨h.1.symm, h.2.symm⟩
    · exact Or.inr (Or.inl ⟨id, item, rest, rfl, hs, h.1.symm, h.2.symm⟩)
  | newTraffic t =>
    rcases t with e | t
    · simp [recvSelect] at h
    · rcases t with tcp | http
      · simp only [recvSelect] at h
        split at h
        · rcases hn : connectionIdsNext s.next_connection_id with _ | p
          · rw [hn] at h
            exact Except.noConfusion h
          · rw [hn] at h
            obtain ⟨rfl, hle⟩ := connectionIdsNext_eq_some hn
            simp only [Except.ok.injEq, Prod.mk.injEq] at h
            refine Or.inr (Or.inr (Or.inr ⟨_, tcp.stream, h.1.symm, rfl, rfl,
              h.2.symm, fun hf => ?_⟩))
            simp_all
        · split at h
          · simp only [Except.ok.injEq, Prod.mk.injEq] at h
            exact Or.inr (Or.inr (Or.inl ⟨tlsNotMirroredLog, h.1.symm, h.2.symm⟩))
          · rcases hn : connectionIdsNext s.next_connection_id with _ | p
            · rw [hn] at h
              exact Except.noConfusion h
            · rw [hn] at h
              obtain ⟨rfl, hle⟩ := connectionIdsNext_eq_some hn
              simp only [Except.ok.injEq, Prod.mk.injEq] at h
              exact Or.inr (Or.inr (Or.inr ⟨_, tcp.stream, h.1.symm, rfl, rfl,
                h.2.symm, fun _ => ⟨tcp, rfl, rfl, rfl⟩⟩))
      · simp only [recvSelect] at h
        split at h
        · rcases hn : connectionIdsNext s.next_connection_id with _ | p
          · rw [hn] at h
            exact Except.noConfusion h
          · rw [hn] at h
            obtain ⟨rfl, hle⟩ := connectionIdsNext_eq_some hn
            simp only [Except.ok.injEq, Prod.mk.injEq] at h
            refine Or.inr (Or.inr (Or.inr ⟨_, http.stream, h.1.symm, rfl, rfl,
              h.2.symm, fun hf => ?_⟩))
            simp_all
        · simp only [Except.ok.injEq, Prod.mk.injEq] at h
          exact Or.inr (Or.inr (Or.inl ⟨httpNotMirroredLog, h.1.symm, h.2.symm⟩))

theorem run_client (s : PassthroughState) (m : LayerTcp) (rest : List SessionInput) :
    run s (.client m :: rest) = run (handle_client_message s m) rest := by
  simp [run]

theorem run_select_pop (s : PassthroughState) (sel : SelectOutcome)
    (rest : List SessionInput) (m : DaemonTcp) (q : List DaemonTcp)
    (hq : s.queued_messages = m :: q) :
    run s (.select sel :: rest) =
      .ok (.Tcp m) :: run { s with queued_messages := q } (.select sel :: rest) := by
  conv_lhs => rw [run]
  rw [hq]

theorem run_select_error (s : PassthroughState) (sel : SelectOutcome)
    (rest : List SessionInput) (e : AgentError)
    (hq : s.queued_messages = []) (h : recvSelect s sel = .error e) :
    run s (.select sel :: rest) = [.error e] := by
  conv_lhs => rw [run]
  rw [hq, h]

theorem run_select_none (s : PassthroughState) (sel : SelectOutcome)
    (rest : List SessionInput) (s' : PassthroughState)
    (hq : s.queued_messages = []) (h : recvSelect s sel = .ok (none, s')) :
    run s (.select sel :: rest) = run s' rest := by
  conv_lhs => rw [run]
  rw [hq, h]

theorem run_select_some (s : PassthroughState) (sel : SelectOutcome)
    (rest : List SessionInput) (msg : DaemonMessage) (s' : PassthroughState)
    (hq : s.queued_messages = []) (h : recvSelect s sel = .ok (some msg, s')) :
    run s (.select sel :: rest) = .ok msg :: run s' rest := by
  conv_lhs => rw [run]
  rw [hq, h]

theorem handle_client_below_gate (s : PassthroughState) (m : LayerTcp)
    (hinv : BelowGateInv s) : BelowGateInv (handle_client_message s m) := by
  obtain ⟨hver, hstreams, hqueue⟩ := hinv
  cases m with
  | ConnectionUnsubscribe id =>
    exact ⟨hver, fun p hp => hstreams p (mem_streamsRemove hp), hqueue⟩
  | PortSubscribe port =>
    refine ⟨hver, hstreams, fun m hm => ?_⟩
    rcases List.mem_append.mp hm with hm | hm
    · exact hqueue m hm
    · simp only [List.mem_singleton] at hm
      subst hm
      simp [DaemonMessage.usesGatedShape]
  | PortUnsubscribe port => exact ⟨hver, hstreams, hqueue⟩

theorem recvSelect_below_gate (s : PassthroughState) (sel : SelectOutcome)
    (r : Option DaemonMessage) (s' : PassthroughState)
    (hinv : BelowGateInv s) (hwf : InputWF (.select sel) = true)
    (h : recvSelect s sel = .ok (r, s')) :
    BelowGateInv s' ∧
      ∀ msg, r = some msg → DaemonMessage.usesGatedShape msg = false := by
  obtain ⟨hver, hstreams, hqueue⟩ := hinv
  rcases recvSelect_cases s sel r s' h with
    ⟨hr, rfl⟩ | ⟨id, item, rest, hsel, hfind, hr, rfl⟩ | ⟨log, hr, rfl⟩ |
    ⟨msg, stream, hr, halloc, hconn, hs', himpl⟩
  · exact ⟨⟨hver, hstreams, hqueue⟩, fun msg hmsg => by rw [hr] at hmsg; cases hmsg⟩
  · obtain ⟨p, hp, hp1, hp2⟩ := streamsFind_eq_some hfind
    have hall : (item :: rest).all tcpItemOk = true := by
      rw [← hp2]
      exact hstreams p hp
    rw [List.all_cons, Bool.and_eq_true] at hall
    refine ⟨⟨hver, ?_, ?_⟩, ?_⟩
    · intro q hq
      rcases mem_streamsInsert hq with rfl | ⟨hq', _⟩
      · exact hall.2
      · exact hstreams q hq'
    · intro m hm
      rcases List.mem_append.mp hm with hm | hm
      · exact hqueue m hm
      · exact handleItem_pushed_not_gated id item m hm
    · intro msg hmsg
      rw [hr] at hmsg
      cases hmsg
      exact handleItem_fst_not_gated id item hall.1
  · refine ⟨⟨hver, hstreams, hqueue⟩, fun msg hmsg => ?_⟩
    rw [hr] at hmsg
    cases hmsg
    simp [DaemonMessage.usesGatedShape]
  · obtain ⟨tcp, hsel', hstream, hmsg⟩ := himpl hver
    subst hs' hsel' hstream hmsg
    constructor
    · refine ⟨hver, ?_, hqueue⟩
      intro q hq
      rcases mem_streamsInsert hq with rfl | ⟨hq', _⟩
      · simpa [InputWF] using hwf
      · exact hstreams q hq'
    · intro msg hmsg
      rw [hr] at hmsg
      cases hmsg
      simp [DaemonMessage.usesGatedShape]

theorem run_below_gate :
    ∀ (s : PassthroughState) (inputs : List SessionInput),
      BelowGateInv s → inputs.all InputWF = true →
      ∀ r ∈ run s inputs, ∀ msg, r = .ok msg →
        DaemonMessage.usesGatedShape msg = false := by
  intro s inputs
  induction s, inputs using run.induct with
  | case1 s =>
    intro _ _ r hr
    rw [show run s [] = [] from by rw [run]] at hr
    cases hr
  | case2 s m rest ih =>
    intro hinv hwf r hr
    rw [run_client] at hr
    rw [List.all_cons, Bool.and_eq_true] at hwf
    exact ih (handle_client_below_gate s m hinv) hwf.2 r hr
  | case3 s sel rest m q hq ih =>
    intro hinv hwf r hr
    rw [run_select_pop s sel rest m q hq] at hr
    rcases List.mem_cons.mp hr with rfl | hr
    · intro msg hmsg
      cases hmsg
      exact hinv.2.2 m (hq ▸ List.mem_cons_self m q)
    · refine ih ⟨hinv.1, hinv.2.1, fun x hx => ?_⟩ hwf r hr
      exact hinv.2.2 x (hq ▸ List.mem_cons_of_mem m hx)
  | case4 s sel rest hq e herr =>
    intro _ _ r hr
    rw [run_select_error s sel rest e hq herr] at hr
    rcases List.mem_singleton.mp hr with rfl
    intro msg hmsg
    cases hmsg
  | case5 s sel rest hq s' hsel ih =>
    intro hinv hwf r hr
    rw [run_select_none s sel rest s' hq hsel] at hr
    rw [List.all_cons, Bool.and_eq_true] at hwf
    exact ih (recvSelect_below_gate s sel none s' hinv hwf.1 hsel).1 hwf.2 r hr
  | case6 s sel rest hq msg s' hsel ih =>
    intro hinv hwf r hr
    rw [run_select_some s sel rest msg s' hq hsel] at hr
    rw [List.all_cons, Bool.and_eq_true] at hwf
    have hstep := recvSelect_below_gate s sel (some msg) s' hinv hwf.1 hsel
    rcases List.mem_cons.mp hr with rfl | hr
    · intro m hm
      cases hm
      exact hstep.2 msg rfl
    · exact ih hstep.1 hwf.2 r hr

/-- C1: for every client session whose negotiated protocol version is
below the `MODE_AGNOSTIC_HTTP_REQUESTS` gate, and for every (wellformed)
input sequence of mirrored traffic and client messages, no message
produced by the session uses the unified connection-announcement shape
(`NewConnectionV2`) or a chunked-HTTP shape (`HttpRequestChunked`); only
legacy shapes or log messages are emitted. -/
theorem below_gate_no_gated_shapes (version : ClientProtocolVersion)
    (inputs : List SessionInput)
    (hver : version.matches MODE_AGNOSTIC_HTTP_REQUESTS = false)
    (hwf : inputs.all InputWF = true) :
    ∀ r ∈ run (passthrough version) inputs, ∀ msg, r = .ok msg →
      DaemonMessage.usesGatedShape msg = false := by
  refine run_below_gate (passthrough version) inputs ⟨hver, ?_, ?_⟩ hwf
  · intro p hp
    cases hp
  · intro m hm
    cases hm

theorem below_gate_no_gated_shapes_witness :
    DaemonMessage.usesGatedShape
      (.Tcp (.NewConnectionV1 ⟨0, .v4 1, 80, 10, .v4 3⟩)) = false :=
  below_gate_no_gated_shapes ⟨1, 18, 0⟩
    [.select (.newTraffic (.ok (.Tcp ⟨⟨⟨.v4 1, 10⟩, ⟨.v4 2, 80⟩, ⟨.v4 3, 30⟩, none⟩,
        [.Data [1], .Finished (.ok ())]⟩)))]
    (by decide) (by decide)
    (.ok (.Tcp (.NewConnectionV1 ⟨0, .v4 1, 80, 10, .v4 3⟩)))
    (by simp [run, recvSelect, handleItem, passthrough, streamsFind, streamsInsert,
      streamsRemove, connectionIdsNext, CONNECTION_ID_MAX, newConnectionV1,
      transportOfTls, ClientProtocolVersion.matches, SemVer.lt,
      MODE_AGNOSTIC_HTTP_REQUESTS])
    (.Tcp (.NewConnectionV1 ⟨0, .v4 1, 80, 10, .v4 3⟩)) rfl

theorem allocatedIds_cons_ok_none {msg : DaemonMessage}
    {t : List (Except AgentError DaemonMessage)} (h : allocationId msg = none) :
    allocatedIds (.ok msg :: t) = allocatedIds t := by
  simp [allocatedIds, h]

theorem allocatedIds_cons_ok_some {msg : DaemonMessage}
    {t : List (Except AgentError DaemonMessage)} {a : ConnectionId}
    (h : allocationId msg = some a) :
    allocatedIds (.ok msg :: t) = a :: allocatedIds t := by
  simp [allocatedIds, h]

theorem allocatedIds_cons_error {e : AgentError}
    {t : List (Except AgentError DaemonMessage)} :
    allocatedIds (.error e :: t) = allocatedIds t := by
  simp [allocatedIds]

theorem handle_client_no_allocs (s : PassthroughState) (m : LayerTcp)
    (h : QueueNoAllocs s) :
    QueueNoAllocs (handle_client_message s m) ∧
      (handle_client_message s m).next_connection_id = s.next_connection_id := by
  cases m with
  | ConnectionUnsubscribe id => exact ⟨h, rfl⟩
  | PortSubscribe port =>
    refine ⟨fun x hx => ?_, rfl⟩
    rcases List.mem_append.mp hx with hx | hx
    · exact h x hx
    · simp only [List.mem_singleton] at hx
      subst hx
      simp [allocationId]
  | PortUnsubscribe port => exact ⟨h, rfl⟩

theorem run_allocated_ids :
    ∀ (s : PassthroughState) (inputs : List SessionInput),
      QueueNoAllocs s →
      List.Chain' (· < ·) (allocatedIds (run s inputs)) ∧
      ∀ a ∈ allocatedIds (run s inputs), s.next_connection_id ≤ a := by
  intro s inputs
  induction s, inputs using run.induct with
  | case1 s =>
    intro _
    rw [show run s [] = [] from by rw [run]]
    exact ⟨List.chain'_nil, fun a ha => by cases ha⟩
  | case2 s m rest ih =>
    intro h
    rw [run_client]
    obtain ⟨h', hnext⟩ := handle_client_no_allocs s m h
    exact hnext ▸ ih h'
  | case3 s sel rest m q hq ih =>
    intro h
    rw [run_select_pop s sel rest m q hq,
      allocatedIds_cons_ok_none (h m (hq ▸ List.mem_cons_self m q))]
    exact ih fun x hx => h x (hq ▸ List.mem_cons_of_mem m hx)
  | case4 s sel rest hq e herr =>
    intro _
    rw [run_select_error s sel rest e hq herr, allocatedIds_cons_error]
    exact ⟨List.chain'_nil, fun a ha => by cases ha⟩
  | case5 s sel rest hq s' hsel ih =>
    intro h
    rw [run_select_none s sel rest s' hq hsel]
    rcases recvSelect_cases s sel none s' hsel with
      ⟨_, rfl⟩ | ⟨_, _, _, _, _, hr, _⟩ | ⟨_, hr, _⟩ | ⟨_, _, hr, _⟩
    · exact ih h
    · cases hr
    · cases hr
    · cases hr
  | case6 s sel rest hq msg s' hsel ih =>
    intro h
    rw [run_select_some s sel rest msg s' hq hsel]
    rcases recvSelect_cases s sel (some msg) s' hsel with
      ⟨hr, _⟩ | ⟨id, item, rest', _, _, hr, rfl⟩ | ⟨log, hr, rfl⟩ |
      ⟨msg', stream, hr, halloc, _, rfl, _⟩
    · cases hr
    · cases hr
      rw [allocatedIds_cons_ok_none (handleItem_fst_no_alloc id item)]
      refine ih fun x hx => ?_
      rcases List.mem_append.mp hx with hx | hx
      · exact h x hx
      · exact handleItem_pushed_no_alloc id item x hx
    · cases hr
      rw [allocatedIds_cons_ok_none (by simp [allocationId])]
      exact ih h
    · cases hr
      rw [allocatedIds_cons_ok_some halloc]
      have ihr := ih h
      refine ⟨List.chain'_cons'.mpr ⟨fun b hb => ?_, ihr.1⟩, fun a ha => ?_⟩
      · exact ihr.2 b (List.mem_of_mem_head? hb)
      · rcases List.mem_cons.mp ha with rfl | ha
        · exact Nat.le_refl _
        · exact Nat.le_of_succ_le (ihr.2 a ha)

/-- C5: within one client session of the passthrough multiplexer, the
connection ids issued to captured connections and HTTP requests are
strictly increasing across successive allocations, and no id is ever
issued twice while the session is active. -/
theorem connection_ids_strictly_increasing (version : ClientProtocolVersion)
    (inputs : List SessionInput) :
    List.Chain' (· < ·) (allocatedIds (run (passthrough version) inputs)) ∧
    (allocatedIds (run (passthrough version) inputs)).Pairwise (· ≠ ·) := by
  have h := run_allocated_ids (passthrough version) inputs (fun m hm => by cases hm)
  refine ⟨h.1, ?_⟩
  have hp : (allocatedIds (run (passthrough version) inputs)).Pairwise (· < ·) :=
    List.chain'_iff_pairwise.mp h.1
  exact hp.imp Nat.ne_of_lt

theorem handle_client_id_retired (id : ConnectionId) (s : PassthroughState)
    (m : LayerTcp) (h : IdRetired id s) : IdRetired id (handle_client_message s m) := by
  obtain ⟨hstreams, hqueue, hnext⟩ := h
  cases m with
  | ConnectionUnsubscribe k =>
    exact ⟨fun p hp => hstreams p (mem_streamsRemove hp), hqueue, hnext⟩
  | PortSubscribe port =>
    refine ⟨hstreams, fun x hx => ?_, hnext⟩
    rcases List.mem_append.mp hx with hx | hx
    · exact hqueue x hx
    · simp only [List.mem_singleton] at hx
      subst hx
      simp [DaemonTcp.connectionId]
  | PortUnsubscribe port => exact ⟨hstreams, hqueue, hnext⟩

theorem recvSelect_id_retired (id : ConnectionId) (s : PassthroughState)
    (sel : SelectOutcome) (r : Option DaemonMessage) (s' : PassthroughState)
    (hret : IdRetired id s) (h : recvSelect s sel = .ok (r, s')) :
    IdRetired id s' ∧
      ∀ msg, r = some msg → DaemonMessage.connectionId msg ≠ some id := by
  obtain ⟨hstreams, hqueue, hnext⟩ := hret
  rcases recvSelect_cases s sel r s' h with
    ⟨hr, rfl⟩ | ⟨k, item, rest, hsel, hfind, hr, rfl⟩ | ⟨log, hr, rfl⟩ |
    ⟨msg, stream, hr, halloc, hconn, rfl, _⟩
  · exact ⟨⟨hstreams, hqueue, hnext⟩, fun msg hmsg => by rw [hr] at hmsg; cases hmsg⟩
  · obtain ⟨p, hp, hp1, hp2⟩ := streamsFind_eq_some hfind
    have hk : k ≠ id := by
      intro hk
      subst hk
      have := hstreams p hp hp1
      rw [hp2] at this
      cases this
    refine ⟨⟨?_, ?_, hnext⟩, ?_⟩
    · intro q hq hq1
      rcases mem_streamsInsert hq with rfl | ⟨hq', _⟩
      · exact absurd hq1 hk
      · exact hstreams q hq' hq1
    · intro x hx
      rcases List.mem_append.mp hx with hx | hx
      · exact hqueue x hx
      · rw [handleItem_pushed_connId k item x hx]
        simp [hk]
    · intro msg hmsg
      rw [hr] at hmsg
      cases hmsg
      rcases handleItem_fst_connId k item with hc | hc <;> rw [hc] <;> simp [hk]
  · refine ⟨⟨hstreams, hqueue, hnext⟩, fun msg hmsg => ?_⟩
    rw [hr] at hmsg
    cases hmsg
    simp [DaemonMessage.connectionId]
  · have hne : s.next_connection_id ≠ id := Nat.ne_of_gt hnext
    refine ⟨⟨?_, hqueue, Nat.lt_succ_of_lt hnext⟩, ?_⟩
    · intro q hq hq1
      rcases mem_streamsInsert hq with rfl | ⟨hq', _⟩
      · exact absurd hq1 hne
      · exact hstreams q hq' hq1
    · intro m hm
      rw [hr] at hm
      cases hm
      rw [hconn]
      simp [hne]

theorem run_id_retired (id : ConnectionId) :
    ∀ (s : PassthroughState) (inputs : List SessionInput),
      IdRetired id s →
      ∀ r ∈ run s inputs, ∀ msg, r = .ok msg →
        DaemonMessage.connectionId msg ≠ some id := by
  intro s inputs
  induction s, inputs using run.induct with
  | case1 s =>
    intro _ r hr
    rw [show run s [] = [] from by rw [run]] at hr
    cases hr
  | case2 s m rest ih =>
    intro hret r hr
    rw [run_client] at hr
    exact ih (handle_client_id_retired id s m hret) r hr
  | case3 s sel rest m q hq ih =>
    intro hret r hr
    rw [run_select_pop s sel rest m q hq] at hr
    rcases List.mem_cons.mp hr with rfl | hr
    · intro msg hmsg
      cases hmsg
      simpa [DaemonMessage.connectionId] using
        hret.2.1 m (hq ▸ List.mem_cons_self m q)
    · exact ih ⟨hret.1, fun x hx => hret.2.1 x (hq ▸ List.mem_cons_of_mem m hx),
        hret.2.2⟩ r hr
  | case4 s sel rest hq e herr =>
    intro _ r hr
    rw [run_select_error s sel rest e hq herr] at hr
    rcases List.mem_singleton.mp hr with rfl
    intro msg hmsg
    cases hmsg
  | case5 s sel rest hq s' hsel ih =>
    intro hret r hr
    rw [run_select_none s sel rest s' hq hsel] at hr
    exact ih (recvSelect_id_retired id s sel none s' hret hsel).1 r hr
  | case6 s sel rest hq msg s' hsel ih =>
    intro hret r hr
    rw [run_select_some s sel rest msg s' hq hsel] at hr
    have hstep := recvSelect_id_retired id s sel (some msg) s' hret hsel
    rcases List.mem_cons.mp hr with rfl | hr
    · intro m hm
      cases hm
      exact hstep.2 msg rfl
    · exact ih hstep.1 r hr

theorem handle_client_head_close (id : ConnectionId) (s : PassthroughState)
    (m : LayerTcp) (h : HeadClose id s) : HeadClose id (handle_client_message s m) := by
  obtain ⟨⟨q, hq, hqrest⟩, hstreams, hnext⟩ := h
  cases m with
  | ConnectionUnsubscribe k =>
    exact ⟨⟨q, hq, hqrest⟩, fun p hp => hstreams p (mem_streamsRemove hp), hnext⟩
  | PortSubscribe port =>
    refine ⟨⟨q ++ [.SubscribeResult (.ok port)], ?_, ?_⟩, hstreams, hnext⟩
    · simp [handle_client_message, hq]
    · intro x hx
      rcases List.mem_append.mp hx with hx | hx
      · exact hqrest x hx
      · simp only [List.mem_singleton] at hx
        subst hx
        simp [DaemonTcp.connectionId]
  | PortUnsubscribe port => exact ⟨⟨q, hq, hqrest⟩, hstreams, hnext⟩

theorem run_head_close (id : ConnectionId) :
    ∀ (inputs : List SessionInput) (s : PassthroughState),
      HeadClose id s →
      run s inputs = [] ∨
      ∃ t, run s inputs = .ok (.Tcp (.Close ⟨id⟩)) :: t ∧
        ∀ r ∈ t, ∀ msg, r = .ok msg → DaemonMessage.connectionId msg ≠ some id := by
  intro inputs
  induction inputs with
  | nil =>
    intro s _
    left
    rw [run]
  | cons i rest ih =>
    intro s h
    cases i with
    | client m =>
      rw [run_client]
      exact ih (handle_client_message s m) (handle_client_head_close id s m h)
    | select sel =>
      obtain ⟨⟨q, hq, hqrest⟩, hstreams, hnext⟩ := h
      right
      rw [run_select_pop s sel rest (.Close ⟨id⟩) q hq]
      exact ⟨_, rfl, run_id_retired id { s with queued_messages := q }
        (.select sel :: rest) ⟨hstreams, hqrest, hnext⟩⟩

/-- C2: when a captured connection's stream finishes with a transport
error, `recv` returns a warning-level log message describing the failure
and pushes a synthesized close for that connection id onto the outbound
queue, so the client receives the warning immediately followed by the
close message (any interleaved client messages produce no output), and no
further message for that connection id is ever produced afterwards. -/
theorem mirrored_connection_failure (s : PassthroughState) (id : ConnectionId)
    (e : String) (rest : List SessionInput)
    (hq : s.queued_messages = [])
    (hfind : streamsFind id s.incoming_streams = some [.Finished (.error e)])
    (hid : id < s.next_connection_id) :
    ∃ t, run s (.select (.streamItem id) :: rest) =
        .ok (.LogMessage (LogMessage.warn (mirrorFailedLog id e))) :: t ∧
      (t = [] ∨ ∃ t', t = .ok (.Tcp (.Close ⟨id⟩)) :: t' ∧
        ∀ r ∈ t', ∀ msg, r = .ok msg →
          DaemonMessage.connectionId msg ≠ some id) := by
  have hsel : recvSelect s (.streamItem id) =
      .ok (some (.LogMessage (LogMessage.warn (mirrorFailedLog id e))),
        { s with
            incoming_streams := streamsInsert id [] s.incoming_streams
            queued_messages := [.Close ⟨id⟩] }) := by
    simp [recvSelect, hfind, handleItem, hq]
  rw [run_select_some s _ rest _ _ hq hsel]
  refine ⟨_, rfl, ?_⟩
  refine run_head_close id rest _
    ⟨⟨[], rfl, fun x hx => absurd hx (List.not_mem_nil x)⟩, ?_, hid⟩
  intro p hp hp1
  rcases mem_streamsInsert hp with rfl | ⟨_, hpne⟩
  · rfl
  · exact absurd hp1 hpne

theorem mirrored_connection_failure_witness :
    (run ⟨[(0, [.Finished (.error "io")])], ⟨1, 19, 0⟩, 1, []⟩
        (.select (.streamItem 0) :: [.select (.streamItem 0)])).head? =
      some (.ok (.LogMessage (LogMessage.warn (mirrorFailedLog 0 "io")))) := by
  obtain ⟨t, h1, h2⟩ :=
    mirrored_connection_failure ⟨[(0, [.Finished (.error "io")])], ⟨1, 19, 0⟩, 1, []⟩
      0 "io" [.select (.streamItem 0)] rfl (by decide) (by decide)
  rw [h1]
  rfl

/-- C7: whenever the outbound queue is non-empty, `recv` dequeues and
returns its head before polling any connection stream or new captured
traffic (the rest of the state is untouched), and messages only ever
enter the queue at its back — by the select body or by
`handle_client_message` — so queued messages are emitted in exactly FIFO
order, never reordered relative to each other. -/
theorem recv_queue_fifo :
    (∀ (streams : List (ConnectionId × IncomingStream)) (ver : ClientProtocolVersion)
        (next : Nat) (m : DaemonTcp) (q : List DaemonTcp) (sel : SelectOutcome),
      recv ⟨streams, ver, next, m :: q⟩ sel = .ok (some (.Tcp m), ⟨streams, ver, next, q⟩)) ∧
    (∀ (s : PassthroughState) (sel : SelectOutcome) (r : Option DaemonMessage)
        (s' : PassthroughState), recvSelect s sel = .ok (r, s') →
      ∃ pushed, s'.queued_messages = s.queued_messages ++ pushed) ∧
    (∀ (s : PassthroughState) (m : LayerTcp),
      ∃ pushed, (handle_client_message s m).queued_messages = s.queued_messages ++ pushed) := by
  refine ⟨fun _ _ _ _ _ _ => rfl, fun s sel r s' h => ?_, fun s m => ?_⟩
  · cases sel with
    | streamItem id =>
      rcases hs : streamsFind id s.incoming_streams with _ | ⟨_ | ⟨item, rest⟩⟩ <;>
        simp only [recvSelect, hs, Except.ok.injEq, Prod.mk.injEq] at h
      · exact ⟨[], by rw [← h.2]; simp⟩
      · exact ⟨[], by rw [← h.2]; simp⟩
      · exact ⟨(handleItem id item).2, by rw [← h.2]⟩
    | newTraffic t =>
      unfold recvSelect at h
      repeat' split at h
      all_goals try exact Except.noConfusion h
      all_goals injection h with h
      all_goals injection h with h1 h2
      all_goals first
        | exact ⟨_, by rw [← h2]⟩
        | exact ⟨[], by rw [← h2]; simp⟩
  · cases m with
    | ConnectionUnsubscribe id => exact ⟨[], by simp [handle_client_message]⟩
    | PortSubscribe port =>
      exact ⟨[.SubscribeResult (.ok port)], by simp [handle_client_message]⟩
    | PortUnsubscribe port => exact ⟨[], by simp [handle_client_message]⟩

theorem terminalOnce_body_tail (id : ConnectionId) (fs : List Frame)
    (r : Except String Unit) :
    terminalOnce (streamMessages id
      (fs.map IncomingStreamItem.Frame ++ [.NoMoreFrames, .Finished r])) = true := by
  induction fs with
  | nil =>
    cases r with
    | ok u =>
      cases u
      simp [streamMessages, handleItem, terminalOnce, terminalFlag, isBodyChunk]
    | error e =>
      simp [streamMessages, handleItem, terminalOnce, terminalFlag, isBodyChunk]
  | cons f fs ih =>
    simpa [streamMessages, handleItem, terminalOnce, terminalFlag] using ih

/-- C9: for every mirrored HTTP request (under a gate-matching version),
`recv` announces it with a chunked start whose body-complete flag comes
from the request head, and the messages derived from the request's event
stream carry the terminal flag `is_last = true` exactly once — on the
chunk ending the body — with no body message following the one carrying
the terminal flag. -/
theorem http_request_terminal_flag_once (s : PassthroughState) (http : MirroredHttp)
    (hwf : HttpStreamWF http)
    (hver : s.protocol_version.matches MODE_AGNOSTIC_HTTP_REQUESTS = true)
    (hq : s.queued_messages = [])
    (hid : s.next_connection_id ≤ CONNECTION_ID_MAX) :
    recv s (.newTraffic (.ok (.Http http))) =
      .ok (some (.Tcp (.HttpRequestChunked
          (.StartV2 (chunkedStartV2 s.next_connection_id http)))),
        { s with
            next_connection_id := s.next_connection_id + 1
            incoming_streams :=
              streamsInsert s.next_connection_id http.stream s.incoming_streams }) ∧
    terminalOnce (httpRequestMessages s.next_connection_id http) = true := by
  have hnext : connectionIdsNext s.next_connection_id =
      some (s.next_connection_id, s.next_connection_id + 1) := by
    simp [connectionIdsNext, hid]
  constructor
  · unfold recv
    rw [hq]
    simp only [recvSelect, hver, if_true, hnext]
    rw [hq]
  · rcases hwf with ⟨hbf, r, hs⟩ | ⟨hbf, fs, r, hs⟩
    · unfold httpRequestMessages
      rw [hs]
      cases r with
      | ok u =>
        cases u
        simp [terminalOnce, terminalFlag, chunkedStartV2, hbf, streamMessages,
          handleItem, isBodyChunk]
      | error e =>
        simp [terminalOnce, terminalFlag, chunkedStartV2, hbf, streamMessages,
          handleItem, isBodyChunk]
    · unfold httpRequestMessages
      rw [hs]
      simpa [terminalOnce, terminalFlag, chunkedStartV2, hbf] using
        terminalOnce_body_tail s.next_connection_id fs r

theorem http_request_terminal_flag_once_witness :
    recv (passthrough ⟨1, 19, 0⟩)
        (.newTraffic (.ok (.Http ⟨⟨⟨.v4 1, 10⟩, ⟨.v4 2, 80⟩, ⟨.v4 3, 30⟩, none⟩,
          ⟨"GET", "/", [], 11, [[5]], false⟩,
          [.Frame [6], .NoMoreFrames, .Finished (.ok ())]⟩))) =
      .ok (some (.Tcp (.HttpRequestChunked (.StartV2 (chunkedStartV2 0
          ⟨⟨⟨.v4 1, 10⟩, ⟨.v4 2, 80⟩, ⟨.v4 3, 30⟩, none⟩,
            ⟨"GET", "/", [], 11, [[5]], false⟩,
            [.Frame [6], .NoMoreFrames, .Finished (.ok ())]⟩)))),
        { passthrough ⟨1, 19, 0⟩ with
            next_connection_id := 1
            incoming_streams :=
              streamsInsert 0 [.Frame [6], .NoMoreFrames, .Finished (.ok ())] [] }) ∧
    terminalOnce (httpRequestMessages 0
      ⟨⟨⟨.v4 1, 10⟩, ⟨.v4 2, 80⟩, ⟨.v4 3, 30⟩, none⟩,
        ⟨"GET", "/", [], 11, [[5]], false⟩,
        [.Frame [6], .NoMoreFrames, .Finished (.ok ())]⟩) = true :=
  http_request_terminal_flag_once (passthrough ⟨1, 19, 0⟩)
    ⟨⟨⟨.v4 1, 10⟩, ⟨.v4 2, 80⟩, ⟨.v4 3, 30⟩, none⟩,
      ⟨"GET", "/", [], 11, [[5]], false⟩,
      [.Frame [6], .NoMoreFrames, .Finished (.ok ())]⟩
    (Or.inr ⟨rfl, [[6]], .ok (), rfl⟩) (by decide) (by decide) (by decide)

theorem recv_queue_fifo_witness :
    recv ⟨[], ⟨1, 19, 0⟩, 4, [.Close ⟨2⟩, .SubscribeResult (.ok 80)]⟩ (.streamItem 2) =
      .ok (some (.Tcp (.Close ⟨2⟩)), ⟨[], ⟨1, 19, 0⟩, 4, [.SubscribeResult (.ok 80)]⟩) :=
  recv_queue_fifo.1 [] ⟨1, 19, 0⟩ 4 (.Close ⟨2⟩) [.SubscribeResult (.ok 80)] (.streamItem 2)

end Mirror
